import Mathlib

/-!
Verification of the Storj-backed IPFS datastore adapter (`storj.go`).

The embedding models the canonical string form of a datastore key as a list
of characters, byte payloads as lists of naturals, and the remote object
store as a list of (storage key, payload) pairs.  Remote-call outcomes that
the adapter only inspects (stat, delete, download) are also modelled
abstractly as `Except`/`Option` values so that error-translation behaviour
can be stated for arbitrary backend errors.
-/

set_option autoImplicit false

namespace Storj

/-- The datastore key separator character `/`. -/
def sep : Char := '/'

/-- Canonical datastore keys, in their string form (always separator-prefixed). -/
abbrev Key := List Char

/-- Flat storage-object keys (no leading separator). -/
abbrev StorageKey := List Char

/-- Byte payloads. -/
abbrev Bytes := List Nat

/-- Embedding of `strings.TrimPrefix(s, "/")`: removes one leading separator when present,
returns the string unchanged otherwise. -/
def trimSep : List Char → List Char
  | [] => []
  | c :: rest => if c = sep then rest else c :: rest

/-- Embedding of `storjKey` (storj.go:215-217): converts a datastore key to the storage key
sent to the remote object store by trimming the leading separator from the
canonical key string. -/
def storjKey (ipfsKey : Key) : StorageKey :=
  trimSep ipfsKey

/-- The datastore-form key reconstructed from a remote object key, as built by
`"/" + list.Item().Key` in `StorjDS.Query` (storj.go:179). -/
def toDatastoreKey (storageKey : StorageKey) : Key :=
  sep :: storageKey

/-- A key string is canonical when it begins with the separator. -/
def isCanonical (k : Key) : Prop :=
  ∃ rest, k = sep :: rest

/-- Claim C1: for every canonical (separator-prefixed) datastore key `K`,
stripping the leading separator (`storjKey`) and prepending a separator again
(`toDatastoreKey`) yields `K` back. -/
theorem roundtrip_storage_key (k : Key) (h : isCanonical k) :
    toDatastoreKey (storjKey k) = k := by
  obtain ⟨rest, rfl⟩ := h
  simp [toDatastoreKey, storjKey, trimSep]

/-- Witness for C1 at the concrete key `/a/b`. -/
theorem roundtrip_storage_key_witness :
    isCanonical [sep, 'a', sep, 'b'] ∧
      toDatastoreKey (storjKey [sep, 'a', sep, 'b']) = [sep, 'a', sep, 'b'] :=
  ⟨⟨['a', sep, 'b'], rfl⟩, roundtrip_storage_key _ ⟨['a', sep, 'b'], rfl⟩⟩

/-! ## Error model -/

/-- Errors returned by the remote object-store client (`uplink`).
`objectNotFound` models `uplink.ErrObjectNotFound`; `other code` models any
other backend error value, with `code` distinguishing the error value so that
"surfaced unchanged" is expressible. -/
inductive RemoteErr where
  | objectNotFound
  | other (code : Nat)
deriving DecidableEq, Repr

/-- Errors the adapter surfaces to its callers: `notFound` models the
datastore sentinel `ds.ErrNotFound`; `backend e` models the raw backend error
`e` passed through unchanged. -/
inductive DsErr where
  | notFound
  | backend (e : RemoteErr)
deriving DecidableEq, Repr

/-- Embedding of `isNotFound` (storj.go:219-221): `errors.Is(err, uplink.ErrObjectNotFound)`.
The argument is an `Option` because Go error values may be `nil`, on which
`errors.Is` yields `false`. -/
def isNotFound : Option RemoteErr → Bool
  | some .objectNotFound => true
  | _ => false

/-! ## Abstract remote-call outcomes and the read/delete operations -/

/-- The metadata returned by a successful `StatObject` call: the adapter only
reads `obj.System.ContentLength`. -/
structure ObjectInfo where
  contentLength : Int
deriving DecidableEq, Repr

/-- Embedding of `StorjDS.Has` (storj.go:104-116), as a function of the `StatObject`
outcome: not-found becomes `(false, nil)`, any other error propagates, success
yields `(true, nil)`. -/
def Has (statResult : Except RemoteErr ObjectInfo) : Bool × Option DsErr :=
  match statResult with
  | .error err =>
    if isNotFound (some err) then (false, none)
    else (false, some (.backend err))
  | .ok _ => (true, none)

/-- Embedding of `StorjDS.GetSize` (storj.go:118-131), as a function of the `StatObject`
outcome: not-found becomes `(-1, ds.ErrNotFound)`, any other error propagates
with `-1`, success yields the content length. -/
def GetSize (statResult : Except RemoteErr ObjectInfo) : Int × Option DsErr :=
  match statResult with
  | .error err =>
    if isNotFound (some err) then (-1, some .notFound)
    else (-1, some (.backend err))
  | .ok obj => (obj.contentLength, none)

/-- Embedding of `StorjDS.Delete` (storj.go:133-143), as a function of the `DeleteObject`
error outcome: a not-found error is swallowed (delete is idempotent), anything
else is returned unchanged. -/
def Delete (deleteResult : Option RemoteErr) : Option RemoteErr :=
  if isNotFound deleteResult then none else deleteResult

/-- A download stream: the chunks successfully read, followed by the terminal
status (`none` = clean EOF, `some e` = read error after those chunks). -/
structure Download where
  chunks : List Bytes
  readErr : Option RemoteErr
deriving DecidableEq, Repr

/-- Embedding of `ioutil.ReadAll`: reads until error or EOF and returns the data read so
far together with the error (EOF itself is not an error). -/
def readAll (d : Download) : Bytes × Option RemoteErr :=
  (d.chunks.flatten, d.readErr)

/-- Embedding of `StorjDS.Get` (storj.go:90-102), as a function of the `DownloadObject`
outcome: an open failure is translated (not-found sentinel or raw error) with
no payload; an opened stream is drained by `ioutil.ReadAll`, whose buffer and
error are both returned. -/
def Get (openResult : Except RemoteErr Download) : Bytes × Option DsErr :=
  match openResult with
  | .error err =>
    if isNotFound (some err) then ([], some .notFound)
    else ([], some (.backend err))
  | .ok d =>
    let r := readAll d
    (r.1, r.2.map .backend)

/-! ## Concrete remote store -/

/-- The contents of the remote bucket: (storage key, payload) pairs. -/
structure Store where
  objects : List (StorageKey × Bytes)
deriving DecidableEq, Repr

/-- Looks up the payload stored under a storage key. -/
def lookupObj : List (StorageKey × Bytes) → StorageKey → Option Bytes
  | [], _ => none
  | (k, v) :: rest, k' => if k = k' then some v else lookupObj rest k'

/-- Removes every object stored under a storage key. -/
def removeObj : List (StorageKey × Bytes) → StorageKey → List (StorageKey × Bytes)
  | [], _ => []
  | (k, v) :: rest, k' => if k = k' then removeObj rest k' else (k, v) :: removeObj rest k'

/-- Remote `project.StatObject`: metadata of the object at a storage key, or
`uplink.ErrObjectNotFound`. -/
def statObject (st : Store) (k : StorageKey) : Except RemoteErr ObjectInfo :=
  match lookupObj st.objects k with
  | some v => .ok ⟨(v.length : Int)⟩
  | none => .error .objectNotFound

/-- Remote `project.DeleteObject`: removes the object at a storage key; reports
`uplink.ErrObjectNotFound` when there is none. -/
def deleteObject (st : Store) (k : StorageKey) : Store × Option RemoteErr :=
  match lookupObj st.objects k with
  | some _ => (⟨removeObj st.objects k⟩, none)
  | none => (st, some .objectNotFound)

/-- Remote `project.UploadObject` + `Write` + `Commit`: stores the payload under the
storage key, replacing any previous object. -/
def uploadObject (st : Store) (k : StorageKey) (v : Bytes) : Store :=
  ⟨(k, v) :: removeObj st.objects k⟩

/-- Remote `project.DownloadObject`: a single-chunk clean stream of the stored
payload, or `uplink.ErrObjectNotFound`. -/
def downloadObject (st : Store) (k : StorageKey) : Except RemoteErr Download :=
  match lookupObj st.objects k with
  | some v => .ok ⟨[v], none⟩
  | none => .error .objectNotFound

/-- Embedding of `StorjDS.Has` run against the concrete store at a datastore key. -/
def dsHas (st : Store) (k : Key) : Bool × Option DsErr :=
  Has (statObject st (storjKey k))

/-- Embedding of `StorjDS.GetSize` run against the concrete store at a datastore key. -/
def dsGetSize (st : Store) (k : Key) : Int × Option DsErr :=
  GetSize (statObject st (storjKey k))

/-- Embedding of `StorjDS.Get` run against the concrete store at a datastore key. -/
def dsGet (st : Store) (k : Key) : Bytes × Option DsErr :=
  Get (downloadObject st (storjKey k))

/-- Embedding of `StorjDS.Delete` run against the concrete store at a datastore key: the
backend delete is issued and a not-found outcome is swallowed. -/
def dsDelete (st : Store) (k : Key) : Store × Option RemoteErr :=
  ((deleteObject st (storjKey k)).1, Delete (deleteObject st (storjKey k)).2)

/-- Embedding of `StorjDS.Put` run against the concrete store at a datastore key: the
upload of the full buffer always commits in this model. -/
def dsPut (st : Store) (k : Key) (v : Bytes) : Store × Option RemoteErr :=
  (uploadObject st (storjKey k) v, none)

/-- After removing a storage key, looking it up finds nothing. -/
theorem lookupObj_removeObj_self (l : List (StorageKey × Bytes)) (k : StorageKey) :
    lookupObj (removeObj l k) k = none := by
  induction l with
  | nil => rfl
  | cons hd tl ih =>
    obtain ⟨k', v⟩ := hd
    by_cases h : k' = k <;> simp [removeObj, lookupObj, h, ih]

/-- A stored pair makes its key found by `lookupObj`. -/
theorem lookupObj_isSome_of_mem (l : List (StorageKey × Bytes)) (k : StorageKey)
    (v : Bytes) (h : (k, v) ∈ l) : (lookupObj l k).isSome := by
  induction l with
  | nil => simp at h
  | cons hd tl ih =>
    obtain ⟨k', v'⟩ := hd
    rcases List.mem_cons.mp h with h' | h'
    · obtain ⟨h1, h2⟩ := Prod.mk.injEq .. ▸ h'
      simp [lookupObj, h1.symm]
    · by_cases hk : k' = k <;> simp [lookupObj, hk, ih h']

/-- Claim C7: `GetSize` on a key that does not exist in the store returns the
not-found sentinel error (with `-1`, never a nil error with a size); on an
existing key it returns the stored content length with no error; and any stat
error other than not-found is surfaced unchanged. -/
theorem getSize_spec (st : Store) (k : Key) (e : RemoteErr) :
    (lookupObj st.objects (storjKey k) = none →
      dsGetSize st k = (-1, some .notFound)) ∧
    (∀ v, lookupObj st.objects (storjKey k) = some v →
      dsGetSize st k = ((v.length : Int), none)) ∧
    (isNotFound (some e) = false →
      GetSize (.error e) = (-1, some (.backend e))) := by
  refine ⟨fun h => ?_, fun v h => ?_, fun h => ?_⟩
  · simp [dsGetSize, statObject, h, GetSize, isNotFound]
  · simp [dsGetSize, statObject, h, GetSize]
  · simp [GetSize, h]

/-- Witness for C7: a store holding only `a`, probed at `/b` (absent), `/a`
(present, 3 bytes), and hit with a non-not-found backend error. -/
theorem getSize_spec_witness :
    dsGetSize ⟨[(['a'], [1, 2, 3])]⟩ [sep, 'b'] = (-1, some .notFound) ∧
    dsGetSize ⟨[(['a'], [1, 2, 3])]⟩ [sep, 'a'] = (3, none) ∧
    GetSize (.error (.other 5)) = (-1, some (.backend (.other 5))) :=
  ⟨(getSize_spec ⟨[(['a'], [1, 2, 3])]⟩ [sep, 'b'] (.other 5)).1 (by decide),
   (getSize_spec ⟨[(['a'], [1, 2, 3])]⟩ [sep, 'a'] (.other 5)).2.1 [1, 2, 3] (by decide),
   (getSize_spec ⟨[(['a'], [1, 2, 3])]⟩ [sep, 'a'] (.other 5)).2.2 (by decide)⟩

/-- Claim C8: `Has` returns `(false, nil)` when the stat probe reports
not-found, `(true, nil)` when the probe succeeds, propagates any other error,
and never surfaces the not-found condition as an error. -/
theorem has_spec (st : Store) (k : Key) (e : RemoteErr) :
    (lookupObj st.objects (storjKey k) = none → dsHas st k = (false, none)) ∧
    (∀ v, lookupObj st.objects (storjKey k) = some v → dsHas st k = (true, none)) ∧
    (isNotFound (some e) = false → Has (.error e) = (false, some (.backend e))) ∧
    (∀ r : Except RemoteErr ObjectInfo, (Has r).2 ≠ some DsErr.notFound) := by
  refine ⟨fun h => ?_, fun v h => ?_, fun h => ?_, fun r => ?_⟩
  · simp [dsHas, statObject, h, Has, isNotFound]
  · simp [dsHas, statObject, h, Has]
  · simp [Has, h]
  · match r with
    | .ok _ => simp [Has]
    | .error err => cases err <;> simp [Has, isNotFound]

/-- Witness for C8: a store holding only `a`, probed at `/b` (absent), `/a`
(present), and hit with a non-not-found backend error. -/
theorem has_spec_witness :
    dsHas ⟨[(['a'], [1, 2, 3])]⟩ [sep, 'b'] = (false, none) ∧
    dsHas ⟨[(['a'], [1, 2, 3])]⟩ [sep, 'a'] = (true, none) ∧
    Has (.error (.other 5)) = (false, some (.backend (.other 5))) :=
  ⟨(has_spec ⟨[(['a'], [1, 2, 3])]⟩ [sep, 'b'] (.other 5)).1 (by decide),
   (has_spec ⟨[(['a'], [1, 2, 3])]⟩ [sep, 'a'] (.other 5)).2.1 [1, 2, 3] (by decide),
   (has_spec ⟨[(['a'], [1, 2, 3])]⟩ [sep, 'a'] (.other 5)).2.2.1 (by decide)⟩

/-- Claim C9: `Delete` swallows a backend not-found outcome (success), passes
every other backend outcome through unchanged, succeeds on a key absent from
the store (leaving the store untouched), and a delete immediately following a
delete of the same key also succeeds (idempotence). -/
theorem delete_spec (st : Store) (k : Key) (r : Option RemoteErr) :
    Delete (some .objectNotFound) = none ∧
    (isNotFound r = false → Delete r = r) ∧
    (lookupObj st.objects (storjKey k) = none → dsDelete st k = (st, none)) ∧
    (dsDelete (dsDelete st k).1 k).2 = none := by
  refine ⟨rfl, fun h => ?_, fun h => ?_, ?_⟩
  · simp [Delete, h]
  · simp [dsDelete, deleteObject, h, Delete, isNotFound]
  · match hl : lookupObj st.objects (storjKey k) with
    | none =>
      simp [dsDelete, deleteObject, hl, Delete, isNotFound]
    | some v =>
      simp [dsDelete, deleteObject, hl, lookupObj_removeObj_self, Delete, isNotFound]

/-- Witness for C9: deleting `/b` from a store holding only `a` succeeds, a
non-not-found backend outcome passes through, and a double delete of `/a`
succeeds. -/
theorem delete_spec_witness :
    Delete (some .objectNotFound) = none ∧
    Delete (some (.other 5)) = some (.other 5) ∧
    dsDelete ⟨[(['a'], [1, 2, 3])]⟩ [sep, 'b'] = (⟨[(['a'], [1, 2, 3])]⟩, none) ∧
    (dsDelete (dsDelete ⟨[(['a'], [1, 2, 3])]⟩ [sep, 'a']).1 [sep, 'a']).2 = none :=
  ⟨(delete_spec ⟨[(['a'], [1, 2, 3])]⟩ [sep, 'b'] (some (.other 5))).1,
   (delete_spec ⟨[(['a'], [1, 2, 3])]⟩ [sep, 'b'] (some (.other 5))).2.1 (by decide),
   (delete_spec ⟨[(['a'], [1, 2, 3])]⟩ [sep, 'b'] (some (.other 5))).2.2.1 (by decide),
   (delete_spec ⟨[(['a'], [1, 2, 3])]⟩ [sep, 'a'] (some (.other 5))).2.2.2⟩

/-- Counterexample to claim C6 as stated: a download stream that yields the
chunk `[1, 2]` and then fails makes `Get` return an error together with the
non-empty partial payload `[1, 2]` — Go's `ioutil.ReadAll` returns the data
read so far alongside the error, and `Get` returns both unchanged. -/
theorem get_partial_payload_counterexample :
    (Get (.ok ⟨[[1, 2]], some (.other 0)⟩)).2 = some (.backend (.other 0)) ∧
    (Get (.ok ⟨[[1, 2]], some (.other 0)⟩)).1 = [1, 2] ∧
    ([1, 2] : Bytes) ≠ [] := by
  refine ⟨rfl, rfl, by decide⟩

/-- Amended claim C6: when `Get` fails to open the download it returns an
empty payload with the error; when the opened stream fails partway through
reading, `Get` returns the bytes read before the failure together with the
raw read error (per `ioutil.ReadAll` semantics). -/
theorem get_error_payload (o : Except RemoteErr Download) :
    ((∃ e, o = .error e) → (Get o).1 = []) ∧
    (∀ d e, o = .ok d → d.readErr = some e →
      Get o = (d.chunks.flatten, some (.backend e))) := by
  constructor
  · rintro ⟨e, rfl⟩
    by_cases h : isNotFound (some e) <;> simp [Get, h]
  · rintro d e rfl he
    simp [Get, readAll, he]

/-- Witness for the amended C6: an open failure yields an empty payload; a
stream failing after the chunk `[1, 2]` yields exactly `[1, 2]` with the
error. -/
theorem get_error_payload_witness :
    (Get (.error .objectNotFound)).1 = [] ∧
    Get (.ok ⟨[[1, 2]], some (.other 0)⟩) = ([1, 2], some (.backend (.other 0))) :=
  ⟨(get_error_payload (.error .objectNotFound)).1 ⟨.objectNotFound, rfl⟩,
   (get_error_payload (.ok ⟨[[1, 2]], some (.other 0)⟩)).2
     ⟨[[1, 2]], some (.other 0)⟩ (.other 0) rfl rfl⟩

/-! ## Batch accumulator -/

/-- Embedding of `batchOp` (storj.go:228-231): a pending operation, either a write of
`value` or a deletion. -/
structure batchOp where
  value : Bytes
  delete : Bool
deriving DecidableEq, Repr

/-- Embedding of `storjBatch` (storj.go:223-226): the in-memory map from datastore key to
its single pending operation, modelled as an association list with unique
keys. -/
structure storjBatch where
  ops : List (Key × batchOp)
deriving DecidableEq, Repr

/-- Assignment into the `ops` map: replaces the entry for the key when one
exists, appends otherwise. -/
def updateOp : List (Key × batchOp) → Key → batchOp → List (Key × batchOp)
  | [], k, op => [(k, op)]
  | (k', op') :: rest, k, op =>
    if k' = k then (k, op) :: rest else (k', op') :: updateOp rest k op

/-- Looks up the pending operation for a key in the `ops` map. -/
def lookupOp : List (Key × batchOp) → Key → Option batchOp
  | [], _ => none
  | (k', op') :: rest, k => if k' = k then some op' else lookupOp rest k

/-- Embedding of `storjBatch.Put` (storj.go:233-242): records a pending write, overwriting
any prior pending operation for the key, and returns a nil error. -/
def storjBatch.Put (b : storjBatch) (key : Key) (value : Bytes) :
    storjBatch × Option RemoteErr :=
  (⟨updateOp b.ops key ⟨value, false⟩⟩, none)

/-- Embedding of `storjBatch.Delete` (storj.go:244-253): records a pending deletion (with a
nil value), overwriting any prior pending operation for the key, and returns a
nil error. -/
def storjBatch.Delete (b : storjBatch) (key : Key) :
    storjBatch × Option RemoteErr :=
  (⟨updateOp b.ops key ⟨[], true⟩⟩, none)

/-- The `storjBatch.Commit` loop (storj.go:255-271), generic in the per-key
apply step: operations are applied in sequence, and the first failing
operation stops the loop, returning its error and the state reached so far. -/
def commitWith {σ ε : Type} (apply : σ → Key → batchOp → Except ε σ) :
    σ → List (Key × batchOp) → σ × Option ε
  | st, [] => (st, none)
  | st, (k, op) :: rest =>
    match apply st k op with
    | .ok st' => commitWith apply st' rest
    | .error e => (st, some e)

/-- The per-key step of `storjBatch.Commit` against the concrete store: a
pending deletion invokes the single-item `Delete`, a pending write invokes the
single-item `Put`, and a non-nil error aborts. -/
def applyStoreOp (st : Store) (k : Key) (op : batchOp) : Except RemoteErr Store :=
  if op.delete then
    match dsDelete st k with
    | (st', none) => .ok st'
    | (_, some e) => .error e
  else
    match dsPut st k op.value with
    | (st', none) => .ok st'
    | (_, some e) => .error e

/-- Embedding of `storjBatch.Commit` against the concrete store. -/
def storjBatch.Commit (st : Store) (b : storjBatch) : Store × Option RemoteErr :=
  commitWith applyStoreOp st b.ops

/-- Claim C2: constructing a batch with `Put(K1,V1)`, `Delete(K1)`,
`Put(K1,V2)` in that order leaves a single pending operation for `K1`, namely
the write of `V2`, and committing it performs exactly the single-item
`Put(K1,V2)` on the store and succeeds. -/
theorem batch_last_write_wins (K1 : Key) (V1 V2 : Bytes) (st : Store) :
    ((((⟨[]⟩ : storjBatch).Put K1 V1).1.Delete K1).1.Put K1 V2).1.ops
        = [(K1, ⟨V2, false⟩)] ∧
    storjBatch.Commit st ((((⟨[]⟩ : storjBatch).Put K1 V1).1.Delete K1).1.Put K1 V2).1
        = ((dsPut st K1 V2).1, none) := by
  constructor
  · simp [storjBatch.Put, storjBatch.Delete, updateOp]
  · simp [storjBatch.Put, storjBatch.Delete, updateOp, storjBatch.Commit,
      commitWith, applyStoreOp, dsPut]

/-- Splitting the commit loop: once a first segment of operations has been
applied without failure, running the whole list continues from the state the
segment reached. -/
theorem commitWith_append {σ ε : Type} (apply : σ → Key → batchOp → Except ε σ)
    (l1 : List (Key × batchOp)) :
    ∀ (st st1 : σ) (l2 : List (Key × batchOp)),
      commitWith apply st l1 = (st1, none) →
      commitWith apply st (l1 ++ l2) = commitWith apply st1 l2 := by
  induction l1 with
  | nil =>
    intro st st1 l2 h
    simp [commitWith] at h
    simp [h]
  | cons hd tl ih =>
    intro st st1 l2 h
    obtain ⟨k, op⟩ := hd
    match ha : apply st k op with
    | .ok st' =>
      simp only [commitWith, ha] at h
      simpa [commitWith, ha] using ih st' st1 l2 h
    | .error e =>
      simp [commitWith, ha] at h

/-- Claim C3: if every operation before some point of the commit loop
succeeds, carrying the state to `st1`, and the operation at that point fails
with `e`, then committing the whole list returns the error `e` with exactly
the state `st1`: the operations already applied remain applied and the
remaining operations are never reached, whatever they are. -/
theorem commit_aborts_on_first_failure {σ ε : Type}
    (apply : σ → Key → batchOp → Except ε σ) (st st1 : σ)
    (l1 l2 : List (Key × batchOp)) (k : Key) (op : batchOp) (e : ε)
    (h1 : commitWith apply st l1 = (st1, none))
    (h2 : apply st1 k op = .error e) :
    commitWith apply st (l1 ++ (k, op) :: l2) = (st1, some e) := by
  rw [commitWith_append apply l1 st st1 ((k, op) :: l2) h1]
  simp [commitWith, h2]

/-- Witness for C3: a three-operation batch whose second operation fails
leaves the first operation applied (the store holds `a ↦ [7]`), returns the
failure, and never applies the third operation. -/
theorem commit_aborts_on_first_failure_witness :
    commitWith
      (fun st k op =>
        if k = [sep, 'b'] then Except.error (RemoteErr.other 3)
        else applyStoreOp st k op)
      (⟨[]⟩ : Store)
      ([([sep, 'a'], ⟨[7], false⟩)] ++
        ([sep, 'b'], ⟨[8], false⟩) :: [([sep, 'c'], ⟨[9], false⟩)])
      = (⟨[(['a'], [7])]⟩, some (RemoteErr.other 3)) :=
  commit_aborts_on_first_failure _ (⟨[]⟩ : Store) (⟨[(['a'], [7])]⟩ : Store)
    [([sep, 'a'], ⟨[7], false⟩)] [([sep, 'c'], ⟨[9], false⟩)]
    [sep, 'b'] ⟨[8], false⟩ (RemoteErr.other 3) (by decide) rfl

/-- Assignment for one key leaves the pending operation of every other key
unchanged. -/
theorem lookupOp_updateOp_ne (l : List (Key × batchOp)) (k k' : Key)
    (op : batchOp) (h : k' ≠ k) :
    lookupOp (updateOp l k op) k' = lookupOp l k' := by
  induction l with
  | nil => simp [updateOp, lookupOp, Ne.symm h]
  | cons hd tl ih =>
    obtain ⟨k₀, op₀⟩ := hd
    by_cases h0 : k₀ = k
    · simp [updateOp, lookupOp, h0, Ne.symm h]
    · simp [updateOp, lookupOp, h0, ih]

/-- Claim C10: the batch accumulator's `Put` and `Delete` always return a nil
error — they only rewrite the in-memory operation map (touching no other
key's pending operation and no remote state), so a batched mutation can fail
only at `Commit`. -/
theorem batch_accumulate_never_fails (b : storjBatch) (k k' : Key) (v : Bytes)
    (h : k' ≠ k) :
    (b.Put k v).2 = none ∧ (b.Delete k).2 = none ∧
    lookupOp (b.Put k v).1.ops k' = lookupOp b.ops k' ∧
    lookupOp (b.Delete k).1.ops k' = lookupOp b.ops k' :=
  ⟨rfl, rfl, lookupOp_updateOp_ne _ _ _ _ h, lookupOp_updateOp_ne _ _ _ _ h⟩

/-- Witness for C10 on a batch already holding a pending write for `/x`,
mutated at `/a`. -/
theorem batch_accumulate_never_fails_witness :
    ((⟨[([sep, 'x'], ⟨[1], false⟩)]⟩ : storjBatch).Put [sep, 'a'] [2]).2 = none ∧
    ((⟨[([sep, 'x'], ⟨[1], false⟩)]⟩ : storjBatch).Delete [sep, 'a']).2 = none ∧
    lookupOp ((⟨[([sep, 'x'], ⟨[1], false⟩)]⟩ : storjBatch).Put [sep, 'a'] [2]).1.ops [sep, 'x']
      = lookupOp [([sep, 'x'], ⟨[1], false⟩)] [sep, 'x'] ∧
    lookupOp ((⟨[([sep, 'x'], ⟨[1], false⟩)]⟩ : storjBatch).Delete [sep, 'a']).1.ops [sep, 'x']
      = lookupOp [([sep, 'x'], ⟨[1], false⟩)] [sep, 'x'] :=
  batch_accumulate_never_fails ⟨[([sep, 'x'], ⟨[1], false⟩)]⟩
    [sep, 'a'] [sep, 'x'] [2] (by decide)

/-! ## Query engine -/

/-- The query descriptor (`dsq.Query`): key prefix (`pref`), keys-only flag,
and the unsupported ordering and filter slices. The slices are `Option`s
because Go distinguishes nil slices from non-nil ones; their elements are
opaque here. -/
structure dsqQuery where
  pref : List Char
  keysOnly : Bool
  orders : Option (List Nat)
  filters : Option (List Nat)
deriving DecidableEq, Repr

/-- A produced query entry (`dsq.Entry`): the datastore-form key, the hydrated
value when the keys-only flag is off, and the size from the object metadata. -/
structure dsqEntry where
  key : Key
  value : Option Bytes
  size : Int
deriving DecidableEq, Repr

/-- Errors from `StorjDS.Query` at query-construction time. -/
inductive QueryErr where
  | unsupported
deriving DecidableEq, Repr

/-- Remote `project.ListObjects` with `Recursive: true` and `System: true`: every
stored object whose storage key extends the requested prefix, with its
metadata. -/
def listObjects (st : Store) (pre : List Char) : List (StorageKey × Bytes) :=
  st.objects.filter (fun o => pre.isPrefixOf o.1)

/-- The iterator loop of `StorjDS.Query` (storj.go:169-190), run to
exhaustion: each remote item becomes an entry whose key is the separator
prepended to the remote key and whose size comes from the item metadata; when
the keys-only flag is off the value is hydrated through `Get`, and a
hydration error ends the sequence with that error. -/
def queryNext (st : Store) (keysOnly : Bool) :
    List (StorageKey × Bytes) → List dsqEntry × Option DsErr
  | [] => ([], none)
  | (k, v) :: rest =>
    if keysOnly then
      let r := queryNext st keysOnly rest
      (⟨toDatastoreKey k, none, (v.length : Int)⟩ :: r.1, r.2)
    else
      match dsGet st (toDatastoreKey k) with
      | (_, some err) => ([], some err)
      | (value, none) =>
        let r := queryNext st keysOnly rest
        (⟨toDatastoreKey k, some value, (v.length : Int)⟩ :: r.1, r.2)

/-- Embedding of `StorjDS.Query` (storj.go:145-192) against the concrete store: reject
descriptors carrying orders or filters before touching the store, trim one
leading separator from the prefix, list the matching objects, and run the
iterator. -/
def dsQuery (st : Store) (q : dsqQuery) : Except QueryErr (List dsqEntry × Option DsErr) :=
  if q.orders.isSome || q.filters.isSome then
    .error .unsupported
  else
    .ok (queryNext st q.keysOnly (listObjects st (trimSep q.pref)))

/-- Claim C4: a query descriptor carrying a non-empty ordering or filter
specification makes `Query` fail with the unsupported-query error on every
store alike — the outcome is independent of the remote contents because no
remote call is issued — and no result sequence is returned. -/
theorem query_unsupported (q : dsqQuery)
    (h : (∃ l, q.orders = some l ∧ l ≠ []) ∨ (∃ l, q.filters = some l ∧ l ≠ [])) :
    ∀ st : Store, dsQuery st q = .error .unsupported := by
  intro st
  rcases h with ⟨l, hl, _⟩ | ⟨l, hl, _⟩ <;> simp [dsQuery, hl]

/-- Witness for C4: a descriptor with one order entry is rejected on the
empty store. -/
theorem query_unsupported_witness :
    dsQuery ⟨[]⟩ ⟨[sep, 'a'], false, some [0], none⟩ = .error .unsupported :=
  query_unsupported ⟨[sep, 'a'], false, some [0], none⟩
    (Or.inl ⟨[0], rfl, by decide⟩) ⟨[]⟩

/-- Stripping the prepended separator recovers the remote key. -/
theorem trimSep_toDatastoreKey (k : StorageKey) : trimSep (toDatastoreKey k) = k := by
  simp [trimSep, toDatastoreKey]

/-- On a list of items all drawn from the store, the iterator hydrates every
item without error, and the produced entries carry exactly the
separator-prefixed remote keys and the metadata sizes, in order. -/
theorem queryNext_of_mem (st : Store) (keysOnly : Bool) :
    ∀ l : List (StorageKey × Bytes), (∀ x ∈ l, x ∈ st.objects) →
      (queryNext st keysOnly l).1.map (fun e => (e.key, e.size)) =
        l.map (fun o => (toDatastoreKey o.1, (o.2.length : Int))) ∧
      (queryNext st keysOnly l).2 = none := by
  intro l
  induction l with
  | nil => intro _; simp [queryNext]
  | cons hd tl ih =>
    intro hmem
    obtain ⟨k, v⟩ := hd
    have htl : ∀ x ∈ tl, x ∈ st.objects := fun x hx => hmem x (List.mem_cons_of_mem _ hx)
    have ihtl := ih htl
    cases keysOnly with
    | true => simp [queryNext, ihtl.1, ihtl.2]
    | false =>
      have hk : (lookupObj st.objects k).isSome :=
        lookupObj_isSome_of_mem st.objects k v (hmem (k, v) (List.mem_cons_self _ _))
      match hl : lookupObj st.objects k with
      | none => rw [hl] at hk; simp at hk
      | some w =>
        simp [queryNext, dsGet, trimSep_toDatastoreKey, storjKey,
          downloadObject, hl, Get, readAll, ihtl.1, ihtl.2]

/-- Claim C5: a supported query strips one leading separator from the
requested prefix before the remote listing, and the produced result sequence
ends cleanly with one entry per listed object, carrying the datastore-form
key (separator prepended to the remote key) and the size from the object
metadata. -/
theorem query_entries_spec (st : Store) (q : dsqQuery)
    (ho : q.orders = none) (hf : q.filters = none) :
    ∃ entries : List dsqEntry,
      dsQuery st q = .ok (entries, none) ∧
      entries.map (fun e => (e.key, e.size)) =
        (listObjects st (trimSep q.pref)).map
          (fun o => (toDatastoreKey o.1, (o.2.length : Int))) := by
  have hmem : ∀ x ∈ listObjects st (trimSep q.pref), x ∈ st.objects :=
    fun x hx => List.mem_of_mem_filter hx
  have h := queryNext_of_mem st q.keysOnly (listObjects st (trimSep q.pref)) hmem
  refine ⟨(queryNext st q.keysOnly (listObjects st (trimSep q.pref))).1, ?_, h.1⟩
  have heq : queryNext st q.keysOnly (listObjects st (trimSep q.pref))
      = ((queryNext st q.keysOnly (listObjects st (trimSep q.pref))).1, none) := by
    rw [← h.2]
  have hq : dsQuery st q
      = .ok (queryNext st q.keysOnly (listObjects st (trimSep q.pref))) := by
    simp [dsQuery, ho, hf]
  rw [hq, heq]

/-- Witness for C5: querying prefix `/a` over the store
`{a/1 ↦ [1,2], a/2 ↦ [3], b/1 ↦ [4]}` succeeds cleanly and yields exactly the
entries `/a/1` (size 2) and `/a/2` (size 1). -/
theorem query_entries_spec_witness :
    ∃ entries : List dsqEntry,
      dsQuery ⟨[(['a', sep, '1'], [1, 2]), (['a', sep, '2'], [3]), (['b', sep, '1'], [4])]⟩
          ⟨[sep, 'a'], false, none, none⟩ = .ok (entries, none) ∧
      entries.map (fun e => (e.key, e.size)) =
        [([sep, 'a', sep, '1'], 2), ([sep, 'a', sep, '2'], 1)] := by
  obtain ⟨entries, h1, h2⟩ :=
    query_entries_spec
      ⟨[(['a', sep, '1'], [1, 2]), (['a', sep, '2'], [3]), (['b', sep, '1'], [4])]⟩
      ⟨[sep, 'a'], false, none, none⟩ rfl rfl
  exact ⟨entries, h1, by rw [h2]; decide⟩

end Storj
